import Mathlib

/-!
# Verification development for `test_go`

Shallow embedding of

* `cmd/transform/main.go`: `QueryAndTransformProducts`, the product loader, the author
  lookup and the record assembly, over a store handle whose three queries may fail;
* `cmd/dirprinter/main.go`: `printDir`, the recursive directory printer.

Go `int` values are only compared, never computed with, so they are `Int`.
A Go slice is a `List` (the `nil` slice is `[]`), the Go pair `([]BigQueryProduct, error)`
is `List BigQueryProduct × Option DBError` (`none` is the `nil` error).
-/

namespace Transform

/-! ## Data model (`cmd/transform/main.go`, lines 17-48) -/

/-- Errors a store call can return: `sql.ErrNoRows`, or any other error (connection loss,
malformed query, scan failure), kept by its message. -/
inductive DBError where
  | ErrNoRows
  | other (msg : String)
deriving DecidableEq, Repr

/-- Go `sql.NullString`. -/
structure NullString where
  String : String
  Valid : Bool
deriving DecidableEq, Repr

/-- The method `(*sql.NullString).Scan`: a NULL column gives `("", false)`, a text column gives
`(text, true)`. -/
def NullString_Scan : Option String → NullString
  | none => { String := "", Valid := false }
  | some s => { String := s, Valid := true }

/-- Struct `Product` (lines 21-26). -/
structure Product where
  ID : Int
  ProductGUID : String
  Name : String
  Description : NullString
deriving DecidableEq, Repr

/-- Struct `CharacterProduct` (lines 29-33); the column of `CharacterType` is `charter_type`. -/
structure CharacterProduct where
  ProductID : Int
  CharacterID : Int
  CharacterType : String
deriving DecidableEq, Repr

/-- Struct `Character` (lines 36-39). -/
structure Character where
  ID : Int
  Name : String
deriving DecidableEq, Repr

/-- Struct `BigQueryProduct` (lines 42-48); the Go field `Type` is written `Type_`. -/
structure BigQueryProduct where
  Type_ : String
  ID : String
  Title : String
  Description : String
  Author : String
deriving DecidableEq, Repr

/-- One row of `SELECT id, product_guid, name, short_description FROM products`, before it is
scanned; `short_description` is the only nullable column. -/
structure ProductRow where
  id : Int
  product_guid : String
  name : String
  short_description : Option String
deriving DecidableEq, Repr

/-- The call `rows.StructScan(&p)` on a row whose columns convert: the columns are copied by
their `db` tags, `short_description` through `NullString_Scan`. -/
def StructScan (row : ProductRow) : Product :=
  { ID := row.id
    ProductGUID := row.product_guid
    Name := row.name
    Description := NullString_Scan row.short_description }

/-- The store handle `*sqlx.DB` as the function uses it, one field per query of the source.

* `Queryx`: `db.Queryx("SELECT id, product_guid, name, short_description FROM products
  LIMIT 10")`; the query fails, or gives a cursor, here the list of what `rows.StructScan`
  gives at each row (a scan error, or the row's columns).
* `RowsErr`: what `rows.Err()` holds once `rows.Next()` has returned false: `none` when the
  cursor ended after its last row, the error when the query broke while the rows were read;
  the rows of `Queryx` are then the rows read before the break.
* `GetCharacterProduct pid`: `db.Get(&characterProduct, "SELECT product_id, character_id,
  charter_type FROM character_products WHERE product_id = $1 AND charter_type LIKE '%作者%'
  AND charter_type NOT LIKE '%作者(原文)%' LIMIT 1", pid)`.
* `GetCharacter id`: `db.Get(&character, "SELECT id, name FROM characters WHERE id = $1", id)`.

`db.Get` returns `sql.ErrNoRows` when the query has no row. The store is only read during
the run, so a query asked twice gives the same answer. -/
structure DB where
  Queryx : Except DBError (List (Except DBError ProductRow))
  RowsErr : Option DBError
  GetCharacterProduct : Int → Except DBError CharacterProduct
  GetCharacter : Int → Except DBError Character

/-! ## `QueryAndTransformProducts` (lines 75-142) -/

/-- The loop `for rows.Next() { ... }` (lines 89-96): `products` is the slice built so far;
a scan error returns at once. When `rows.Next()` returns false the loop ends, after the last
row as after an error of the cursor: the source has no call of `rows.Err()`. -/
def scanLoop : List (Except DBError ProductRow) → List Product → Except DBError (List Product)
  | [], products => .ok products
  | .error err :: _, _ => .error err
  | .ok row :: rest, products => scanLoop rest (products ++ [StructScan row])

/-- Body of the loop `for _, product := range products` (lines 101-138): `.ok r` when the
iteration appends `r` to `result`, `.error err` when it executes `return nil, err`. -/
def loopBody (db : DB) (product : Product) : Except DBError BigQueryProduct :=
  match db.GetCharacterProduct product.ID with
  | .error err =>
    if err = DBError.ErrNoRows then
      .ok { Type_ := "PP"
            ID := product.ProductGUID
            Title := product.Name
            Description := product.Description.String
            Author := "" }
    else .error err
  | .ok characterProduct =>
    match db.GetCharacter characterProduct.CharacterID with
    | .error err => .error err
    | .ok character =>
      .ok { Type_ := "PP"
            ID := product.ProductGUID
            Title := product.Name
            Description := product.Description.String
            Author := character.Name }

/-- The loop of lines 99-141 with its accumulator `result`: on an error the function returns
`nil, err`, at the end of the batch `result, nil`. -/
def transformLoop (db : DB) : List Product → List BigQueryProduct →
    List BigQueryProduct × Option DBError
  | [], result => (result, none)
  | product :: rest, result =>
    match loopBody db product with
    | .error err => ([], some err)
    | .ok bqProduct => transformLoop db rest (result ++ [bqProduct])

/-- The function `QueryAndTransformProducts` (lines 75-142). -/
def QueryAndTransformProducts (db : DB) : List BigQueryProduct × Option DBError :=
  match db.Queryx with
  | .error err => ([], some err)
  | .ok rows =>
    match scanLoop rows [] with
    | .error err => ([], some err)
    | .ok products => transformLoop db products []

/-! ## The store as tables, and the three SQL queries over it -/

/-- `anySuffix f s`: `f` holds of some suffix of `s` (what a leading `%` of a pattern does). -/
def anySuffix (f : List Char → Bool) : List Char → Bool
  | [] => f []
  | c :: s => f (c :: s) || anySuffix f s

/-- SQL `LIKE` on characters, pattern first: `%` matches any run of characters, `_` any one
character, any other character itself. (The patterns of the source have no escape.) -/
def likeMatch : List Char → List Char → Bool
  | [], s => s.isEmpty
  | p :: ps, s =>
    if p = '%' then anySuffix (likeMatch ps) s
    else match s with
      | [] => false
      | c :: cs => (p = '_' || p = c) && likeMatch ps cs

/-- SQL `s LIKE pattern`. -/
def LIKE (s pattern : String) : Bool := likeMatch pattern.data s.data

/-- The `WHERE` clause of the association query:
`product_id = $1 AND charter_type LIKE '%作者%' AND charter_type NOT LIKE '%作者(原文)%'`. -/
def authorFilter (pid : Int) (r : CharacterProduct) : Bool :=
  decide (r.ProductID = pid) && LIKE r.CharacterType "%作者%" &&
    !LIKE r.CharacterType "%作者(原文)%"

/-- A state of the store: the three tables, each in the order in which the store returns
its rows. -/
structure Tables where
  products : List ProductRow
  character_products : List CharacterProduct
  characters : List Character
deriving DecidableEq, Repr

/-- The handle of a store in state `T` whose calls never fail: `LIMIT 10` keeps the first ten
product rows, `LIMIT 1` and `db.Get` keep the first row of the selection, and an empty
selection is `sql.ErrNoRows`. -/
def Tables.toDB (T : Tables) : DB where
  Queryx := .ok ((T.products.take 10).map .ok)
  RowsErr := none
  GetCharacterProduct pid :=
    match T.character_products.find? (authorFilter pid) with
    | some r => .ok r
    | none => .error DBError.ErrNoRows
  GetCharacter id :=
    match T.characters.find? (fun c => decide (c.ID = id)) with
    | some c => .ok c
    | none => .error DBError.ErrNoRows

/-- The failures at which the source returns an error: the call of the product query fails,
or a row does not scan, or for a loaded product the association query fails otherwise than
with `sql.ErrNoRows`, or the character lookup of its selected row fails. -/
def CheckedFailure (db : DB) : Prop :=
  (∃ e, db.Queryx = .error e) ∨
  ∃ rows, db.Queryx = .ok rows ∧
    ((∃ e, Except.error e ∈ rows) ∨
      ∃ ps, scanLoop rows [] = .ok ps ∧ ∃ p ∈ ps,
        (∃ e, db.GetCharacterProduct p.ID = .error e ∧ e ≠ DBError.ErrNoRows) ∨
        ∃ cp e, db.GetCharacterProduct p.ID = .ok cp ∧
          db.GetCharacter cp.CharacterID = .error e)

/-- The failures of a run: a failure at which the source returns an error, or a product
query that breaks while its rows are read (`rows.Err()` is then not `nil`). -/
def RunFails (db : DB) : Prop :=
  CheckedFailure db ∨ ∃ rows e, db.Queryx = .ok rows ∧ db.RowsErr = some e

/-! ## The pipeline as the specification words it -/

/-- `assemble(product, maybeIdentity)` as the specification words it: the kind tag is the
constant, the external id and the title are copied, the description is the empty string when
the source value is absent, the author is the empty string when there is no identity. -/
def assemble (product : Product) (maybeIdentity : Option Character) : BigQueryProduct :=
  { Type_ := "PP"
    ID := product.ProductGUID
    Title := product.Name
    Description := if product.Description.Valid then product.Description.String else ""
    Author := match maybeIdentity with
      | some identity => identity.Name
      | none => "" }

/-- `resolveAuthor(productId)` as the specification words it: no matching association is the
outcome "none"; a matching association whose identity lookup fails is an error. -/
def resolveAuthor (db : DB) (productId : Int) : Except DBError (Option Character) :=
  match db.GetCharacterProduct productId with
  | .error DBError.ErrNoRows => .ok none
  | .error err => .error err
  | .ok a =>
    match db.GetCharacter a.CharacterID with
    | .error err => .error err
    | .ok identity => .ok (some identity)

/-- The driver as the specification words it, over the loaded batch: for each product in load
order, resolve the author, assemble the record, append it; any failure aborts the run. -/
def specRun (db : DB) : List Product → Except DBError (List BigQueryProduct)
  | [] => .ok []
  | product :: rest =>
    match resolveAuthor db product.ID with
    | .error err => .error err
    | .ok maybeIdentity =>
      match specRun db rest with
      | .error err => .error err
      | .ok records => .ok (assemble product maybeIdentity :: records)

/-! ## Example stores -/

/-- A store with three products: the first has only an original-language author row and a
NULL description, the second an author row, the third no row at all. -/
def exampleTables : Tables where
  products :=
    [ { id := 1, product_guid := "g1", name := "Book A", short_description := none },
      { id := 2, product_guid := "g2", name := "Book B", short_description := some "desc" },
      { id := 3, product_guid := "g3", name := "Book C", short_description := none } ]
  character_products :=
    [ { ProductID := 1, CharacterID := 11, CharacterType := "作者(原文)" },
      { ProductID := 2, CharacterID := 12, CharacterType := "譯者" },
      { ProductID := 2, CharacterID := 10, CharacterType := "作者" },
      { ProductID := 2, CharacterID := 11, CharacterType := "共同作者" } ]
  characters :=
    [ { ID := 10, Name := "Jane Doe" },
      { ID := 11, Name := "John Roe" },
      { ID := 12, Name := "Ann Poe" } ]

/-- A store whose second product has an author row that references a missing character. -/
def brokenTables : Tables where
  products :=
    [ { id := 1, product_guid := "g1", name := "Book A", short_description := none },
      { id := 2, product_guid := "g2", name := "Book B", short_description := some "desc" } ]
  character_products := [ { ProductID := 2, CharacterID := 10, CharacterType := "作者" } ]
  characters := [ { ID := 11, Name := "John Roe" } ]

/-- The handle of the store `exampleTables` when the product query breaks after its second
row (the connection is lost): the cursor gives the first two rows, then `rows.Next()` returns
false and `rows.Err()` holds the error. -/
def cursorBreakDB : DB :=
  { exampleTables.toDB with
    Queryx := .ok ((exampleTables.products.take 2).map .ok)
    RowsErr := some (DBError.other "unexpected EOF") }

/-- A store with twelve products, none with an association row. -/
def twelveTables : Tables where
  products := (List.range 12).map (fun n =>
    { id := Int.ofNat n, product_guid := String.mk [Char.ofNat (97 + n)], name := "Book",
      short_description := none })
  character_products := []
  characters := []

/-- The store of the second end-to-end example: one product, one author row, its character. -/
def bookBTables : Tables where
  products := [ { id := 2, product_guid := "g2", name := "Book B",
                  short_description := some "desc" } ]
  character_products := [ { ProductID := 2, CharacterID := 10, CharacterType := "作者" } ]
  characters := [ { ID := 10, Name := "Jane Doe" } ]

/-- The store of the first end-to-end example: one product with a NULL description, no
association row, no character. -/
def bookATables : Tables where
  products := [ { id := 1, product_guid := "g1", name := "Book A", short_description := none } ]
  character_products := []
  characters := []

end Transform

namespace DirPrinter

/-! ## `printDir` (`cmd/dirprinter/main.go`, lines 16-38) -/

/-- An entry of a listing (`os.DirEntry`) with what `os.ReadDir` gives below it: a file, a
directory with its listing, or a directory on which `os.ReadDir` fails with an error. -/
inductive DirEntry where
  | file (name : String)
  | dir (name : String) (files : List DirEntry)
  | unreadable (name : String) (err : String)

/-- `strings.HasPrefix(s, p)`. -/
def HasPrefix (s p : String) : Bool := p.data.isPrefixOf s.data

/-- The filter of line 25: `strings.HasPrefix(file.Name(), ".") && file.Name() != ".gitignore"`. -/
def skipped (name : String) : Bool := HasPrefix name "." && name != ".gitignore"

/-- Lines 31-34: `newPrefix`, for the entry of index `i` in a listing of `len` entries. -/
def newPrefix (pfx : String) (i len : Int) : String :=
  if i = len - 1 then pfx ++ "    " else pfx ++ "│   "

mutual
/-- The loop `for i, file := range files` (lines 23-37) from index `i` on, over the entries
that remain; `len` is `len(files)`, `Join` is `filepath.Join`; the value is the text written
to `out`. -/
def printLoop (Join : String → String → String) (pfx dir : String) (len : Int) :
    List DirEntry → Int → String
  | [], _ => ""
  | file :: rest, i =>
    printBody Join pfx dir len i file ++ printLoop Join pfx dir len rest (i + 1)
/-- One iteration of the loop, with the call `printDir(out, newPrefix, filepath.Join(dir,
file.Name()))` of line 35 unfolded: it reads the directory and prints the failure line
(lines 17-21) or runs the loop over its listing. -/
def printBody (Join : String → String → String) (pfx dir : String) (len : Int) (i : Int) :
    DirEntry → String
  | .file name =>
    if skipped name then "" else pfx ++ "├── " ++ name ++ "\n"
  | .dir name files =>
    if skipped name then ""
    else pfx ++ "├── " ++ name ++ "\n" ++
      printLoop Join (newPrefix pfx i len) (Join dir name) files.length files 0
  | .unreadable name err =>
    if skipped name then ""
    else pfx ++ "├── " ++ name ++ "\n" ++
      ("failed to read dir " ++ Join dir name ++ ": " ++ err ++ "\n")
end

/-- The function `printDir(out, pfx, dir)`, given what `os.ReadDir(dir)` returns. -/
def printDir (Join : String → String → String) (pfx dir : String) :
    Except String (List DirEntry) → String
  | .error err => "failed to read dir " ++ dir ++ ": " ++ err ++ "\n"
  | .ok files => printLoop Join pfx dir files.length files 0

/-- The function `main` (lines 40-49): what it writes to standard output, given `os.Args`
and what `os.ReadDir` returns for the directory. -/
def main (Join : String → String → String) (Args : List String)
    (root : Except String (List DirEntry)) : String :=
  match Args with
  | [_, dir] => dir ++ "\n" ++ printDir Join "" dir root
  | _ => ""

/-! ## The reference rendering -/

/-- A directory tree: a file, or a directory with its entries in listing order. -/
inductive Tree where
  | file (name : String)
  | dir (name : String) (entries : List Tree)

mutual
/-- The entry `os.ReadDir` gives for a tree. -/
def Tree.toEntry : Tree → DirEntry
  | .file name => .file name
  | .dir name entries => .dir name (toEntries entries)
/-- The listing `os.ReadDir` gives for the entries of a directory. -/
def toEntries : List Tree → List DirEntry
  | [] => []
  | t :: ts => t.toEntry :: toEntries ts
end

/-- An entry is shown when its name does not start with `.` or is exactly `.gitignore`. -/
def shown (name : String) : Bool :=
  decide (name.data.head? ≠ some '.') || decide (name = ".gitignore")

mutual
/-- The reference rendering of a listing under a prefix: the entries in listing order; the
last entry of the listing extends the prefix by four spaces, the others by `│   `. -/
def render (pfx : String) : List Tree → String
  | [] => ""
  | [t] => renderEntry pfx "    " t
  | t :: u :: rest => renderEntry pfx "│   " t ++ render pfx (u :: rest)
/-- The reference rendering of one entry: nothing when it is not shown; else its line,
followed for a directory by the rendering of its entries under the extended prefix. -/
def renderEntry (pfx ext : String) : Tree → String
  | .file name => if shown name then pfx ++ "├── " ++ name ++ "\n" else ""
  | .dir name entries =>
    if shown name then pfx ++ "├── " ++ name ++ "\n" ++ render (pfx ++ ext) entries else ""
end

/-- The repository tree of the trailing comment of `cmd/dirprinter/main.go`. -/
def repoTree : List Tree :=
  [ .file ".gitignore",
    .dir "cmd" [ .dir "dirprinter" [ .file "main.go" ], .dir "transform" [ .file "main.go" ] ],
    .file "go.mod",
    .file "go.sum",
    .dir "pkg" [ .file "123.txt", .dir "db" [ .file "db.go" ] ] ]

end DirPrinter

namespace Transform

/-! ## Lemmas on the pattern match -/

theorem anySuffix_iff (f : List Char → Bool) (s : List Char) :
    anySuffix f s = true ↔ ∃ t, t <:+ s ∧ f t = true := by
  induction s with
  | nil =>
    simp only [anySuffix, List.suffix_nil]
    constructor
    · intro h
      exact ⟨[], rfl, h⟩
    · rintro ⟨t, rfl, h⟩
      exact h
  | cons c s ih =>
    simp only [anySuffix, Bool.or_eq_true, ih, List.suffix_cons_iff]
    constructor
    · rintro (h | ⟨t, ht, hf⟩)
      · exact ⟨c :: s, Or.inl rfl, h⟩
      · exact ⟨t, Or.inr ht, hf⟩
    · rintro ⟨t, (rfl | ht), hf⟩
      · exact Or.inl hf
      · exact Or.inr ⟨t, ht, hf⟩

/-- A pattern `sub%` whose `sub` has no wildcard matches the texts that start with `sub`. -/
theorem likeMatch_literal_percent (sub : List Char)
    (hsub : ∀ c ∈ sub, c ≠ '%' ∧ c ≠ '_') (s : List Char) :
    likeMatch (sub ++ ['%']) s = true ↔ sub <+: s := by
  induction sub generalizing s with
  | nil =>
    simp only [List.nil_append, likeMatch, if_true, List.nil_prefix, iff_true]
    rw [anySuffix_iff]
    exact ⟨[], List.nil_suffix, rfl⟩
  | cons a sub ih =>
    have ha := hsub a (List.mem_cons_self a sub)
    have ih2 := ih (fun c hc => hsub c (List.mem_cons_of_mem a hc))
    cases s with
    | nil => simp [likeMatch, ha.1]
    | cons c cs =>
      have h := ih2 cs
      simp only [List.cons_append, likeMatch, ha.1, if_false, ha.2, decide_False,
        Bool.false_or, Bool.and_eq_true, decide_eq_true_eq, List.cons_prefix_cons]
      exact and_congr_right (fun _ => h)

/-- A pattern `%sub%` whose `sub` has no wildcard matches the texts in which `sub` occurs. -/
theorem likeMatch_percent_literal_percent (sub : List Char)
    (hsub : ∀ c ∈ sub, c ≠ '%' ∧ c ≠ '_') (s : List Char) :
    likeMatch ('%' :: (sub ++ ['%'])) s = true ↔ sub <:+: s := by
  rw [List.infix_iff_prefix_suffix]
  simp only [likeMatch, if_true]
  rw [anySuffix_iff]
  constructor
  · rintro ⟨t, ht, h⟩
    exact ⟨t, (likeMatch_literal_percent sub hsub t).1 h, ht⟩
  · rintro ⟨t, h, ht⟩
    exact ⟨t, ht, (likeMatch_literal_percent sub hsub t).2 h⟩

/-- The inclusion pattern selects the labels in which `作者` occurs. -/
theorem LIKE_author (s : String) : LIKE s "%作者%" = true ↔ "作者".data <:+: s.data := by
  have h : "%作者%".data = '%' :: ("作者".data ++ ['%']) := by decide
  unfold LIKE
  rw [h]
  exact likeMatch_percent_literal_percent _ (by decide) _

/-- The exclusion pattern selects the labels in which `作者(原文)` occurs. -/
theorem LIKE_original (s : String) :
    LIKE s "%作者(原文)%" = true ↔ "作者(原文)".data <:+: s.data := by
  have h : "%作者(原文)%".data = '%' :: ("作者(原文)".data ++ ['%']) := by decide
  unfold LIKE
  rw [h]
  exact likeMatch_percent_literal_percent _ (by decide) _

/-- The `WHERE` clause in words: the row is of the product, its label contains `作者` and
does not contain `作者(原文)`. -/
theorem authorFilter_iff (pid : Int) (r : CharacterProduct) :
    authorFilter pid r = true ↔
      r.ProductID = pid ∧ "作者".data <:+: r.CharacterType.data ∧
        ¬ "作者(原文)".data <:+: r.CharacterType.data := by
  unfold authorFilter
  simp only [Bool.and_eq_true, decide_eq_true_eq, Bool.not_eq_true', LIKE_author, and_assoc]
  rw [← LIKE_original, Bool.not_eq_true]

/-! ## Lemmas on the two loops -/

theorem scanLoop_map_ok (rows : List ProductRow) (products : List Product) :
    scanLoop (rows.map Except.ok) products = .ok (products ++ rows.map StructScan) := by
  induction rows generalizing products with
  | nil => simp [scanLoop]
  | cons row rest ih => simp [scanLoop, ih]

theorem scanLoop_ok_inv (rows : List (Except DBError ProductRow)) (products ps : List Product)
    (h : scanLoop rows products = .ok ps) :
    ∃ rs : List ProductRow, rows = rs.map Except.ok ∧ ps = products ++ rs.map StructScan := by
  induction rows generalizing products with
  | nil =>
    simp only [scanLoop, Except.ok.injEq] at h
    exact ⟨[], rfl, by simp [h]⟩
  | cons r rest ih =>
    cases r with
    | error e => simp [scanLoop] at h
    | ok row =>
      simp only [scanLoop] at h
      obtain ⟨rs, h1, h2⟩ := ih _ h
      exact ⟨row :: rs, by simp [h1], by simp [h2]⟩

theorem scanLoop_error_of_mem (rows : List (Except DBError ProductRow)) (products : List Product)
    (e : DBError) (h : Except.error e ∈ rows) : ∃ e2, scanLoop rows products = .error e2 := by
  induction rows generalizing products with
  | nil => simp at h
  | cons r rest ih =>
    cases r with
    | error e1 => exact ⟨e1, rfl⟩
    | ok row =>
      simp only [List.mem_cons, reduceCtorEq, false_or] at h
      simpa [scanLoop] using ih _ h

theorem scanLoop_error_inv (rows : List (Except DBError ProductRow)) (products : List Product)
    (e : DBError) (h : scanLoop rows products = .error e) : Except.error e ∈ rows := by
  induction rows generalizing products with
  | nil => simp [scanLoop] at h
  | cons r rest ih =>
    cases r with
    | error e1 =>
      simp only [scanLoop, Except.error.injEq] at h
      simp [h]
    | ok row =>
      simp only [scanLoop] at h
      exact List.mem_cons_of_mem _ (ih _ h)

/-- A run of the loop without error appends one record per product, in order, each the one
the body gives. -/
theorem transformLoop_ok_iff (db : DB) (ps : List Product) (result rs : List BigQueryProduct) :
    transformLoop db ps result = (rs, none) ↔
      ∃ tl, rs = result ++ tl ∧ List.Forall₂ (fun p r => loopBody db p = .ok r) ps tl := by
  induction ps generalizing result with
  | nil =>
    simp only [transformLoop, Prod.mk.injEq, and_true, List.forall₂_nil_left_iff]
    constructor
    · intro h
      exact ⟨[], by simp [h], rfl⟩
    · rintro ⟨tl, h, rfl⟩
      simp [h]
  | cons p rest ih =>
    unfold transformLoop
    cases hb : loopBody db p with
    | error e =>
      simp only [Prod.mk.injEq, reduceCtorEq, and_false, false_iff, not_exists, not_and]
      intro tl _ hf
      cases hf with
      | cons h _ =>
        rw [hb] at h
        simp at h
    | ok r =>
      simp only [ih]
      constructor
      · rintro ⟨tl, h1, h2⟩
        exact ⟨r :: tl, by simp [h1], List.Forall₂.cons hb h2⟩
      · rintro ⟨tl, h1, h2⟩
        cases h2 with
        | cons h h3 =>
          rw [hb] at h
          simp only [Except.ok.injEq] at h
          subst h
          exact ⟨_, by simp [h1], h3⟩

/-- A run of the loop that ends with an error returns no record, and the error is the one
the body gives at some product of the batch. -/
theorem transformLoop_error_inv (db : DB) (ps : List Product) (result rs : List BigQueryProduct)
    (e : DBError) (h : transformLoop db ps result = (rs, some e)) :
    rs = [] ∧ ∃ p ∈ ps, loopBody db p = .error e := by
  induction ps generalizing result with
  | nil => simp [transformLoop] at h
  | cons p rest ih =>
    unfold transformLoop at h
    cases hb : loopBody db p with
    | error e1 =>
      rw [hb] at h
      simp only [Prod.mk.injEq, Option.some.injEq] at h
      exact ⟨h.1.symm, p, List.mem_cons_self _ _, by rw [← h.2]; exact hb⟩
    | ok r =>
      rw [hb] at h
      obtain ⟨h1, q, hq, h2⟩ := ih _ h
      exact ⟨h1, q, List.mem_cons_of_mem _ hq, h2⟩

/-- A product at which the body fails makes the loop end with an error and no record. -/
theorem transformLoop_error_of_mem (db : DB) (ps : List Product) (result : List BigQueryProduct)
    (p : Product) (hp : p ∈ ps) (e : DBError) (h : loopBody db p = .error e) :
    ∃ e2, transformLoop db ps result = ([], some e2) := by
  induction ps generalizing result with
  | nil => simp at hp
  | cons q rest ih =>
    unfold transformLoop
    cases hb : loopBody db q with
    | error e1 => exact ⟨e1, rfl⟩
    | ok r =>
      rcases List.mem_cons.1 hp with rfl | hp2
      · rw [h] at hb
        simp at hb
      · exact ih _ hp2

/-- The result of a run is a pair of records without error, or of no record with an error. -/
theorem transformLoop_cases (db : DB) (ps : List Product) (result : List BigQueryProduct) :
    (∃ rs, transformLoop db ps result = (rs, none)) ∨
      ∃ e, transformLoop db ps result = ([], some e) := by
  generalize hr : transformLoop db ps result = r
  obtain ⟨rs, o⟩ := r
  cases o with
  | none => exact Or.inl ⟨rs, rfl⟩
  | some e =>
    obtain ⟨h1, _⟩ := transformLoop_error_inv db ps result rs e hr
    exact Or.inr ⟨e, by rw [h1]⟩

/-- The function when the product query succeeds and every row scans. -/
theorem QueryAndTransformProducts_of_rows (db : DB) (rows : List ProductRow)
    (hq : db.Queryx = .ok (rows.map Except.ok)) :
    QueryAndTransformProducts db = transformLoop db (rows.map StructScan) [] := by
  unfold QueryAndTransformProducts
  rw [hq]
  simp only [scanLoop_map_ok, List.nil_append]

/-- The function over a store given by its tables. -/
theorem QueryAndTransformProducts_toDB (T : Tables) :
    QueryAndTransformProducts T.toDB =
      transformLoop T.toDB ((T.products.take 10).map StructScan) [] :=
  QueryAndTransformProducts_of_rows T.toDB (T.products.take 10) rfl

/-- Every record of a run without error is, at its index, the one the body gives for the
row of that index. -/
theorem run_index (db : DB) (rows : List ProductRow)
    (hq : db.Queryx = .ok (rows.map Except.ok)) (rs : List BigQueryProduct)
    (hrun : QueryAndTransformProducts db = (rs, none)) :
    rs.length = rows.length ∧
      ∀ i (hi : i < rows.length), ∃ r, rs[i]? = some r ∧
        loopBody db (StructScan rows[i]) = .ok r := by
  rw [QueryAndTransformProducts_of_rows db rows hq, transformLoop_ok_iff] at hrun
  obtain ⟨tl, h1, h2⟩ := hrun
  simp only [List.nil_append] at h1
  subst h1
  have hlen := h2.length_eq
  simp only [List.length_map] at hlen
  refine ⟨hlen.symm, fun i hi => ?_⟩
  have hi2 : i < rs.length := by omega
  refine ⟨rs[i], List.getElem?_eq_getElem hi2, ?_⟩
  have h3 := h2.get (i := i) (by simpa using hi) hi2
  simpa using h3

/-- A batch on every product of which the body succeeds is processed without error. -/
theorem transformLoop_total (db : DB) (ps : List Product) (result : List BigQueryProduct)
    (h : ∀ p ∈ ps, ∃ r, loopBody db p = .ok r) :
    ∃ rs, transformLoop db ps result = (rs, none) := by
  rcases transformLoop_cases db ps result with hok | ⟨e, he⟩
  · exact hok
  · obtain ⟨_, p, hp, hpe⟩ := transformLoop_error_inv db ps result [] e he
    obtain ⟨r, hr⟩ := h p hp
    rw [hr] at hpe
    simp at hpe

/-- What the body copies from the product into the record, whichever branch it takes. -/
theorem loopBody_fields (db : DB) (p : Product) (r : BigQueryProduct)
    (h : loopBody db p = .ok r) :
    r.Type_ = "PP" ∧ r.ID = p.ProductGUID ∧ r.Title = p.Name ∧
      r.Description = p.Description.String := by
  unfold loopBody at h
  split at h
  · split at h
    · simp only [Except.ok.injEq] at h
      subst h
      exact ⟨rfl, rfl, rfl, rfl⟩
    · simp at h
  · split at h
    · simp at h
    · simp only [Except.ok.injEq] at h
      subst h
      exact ⟨rfl, rfl, rfl, rfl⟩

/-- The body when the association query has no row. -/
theorem loopBody_noRows (db : DB) (p : Product)
    (h : db.GetCharacterProduct p.ID = .error DBError.ErrNoRows) :
    loopBody db p = .ok { Type_ := "PP", ID := p.ProductGUID, Title := p.Name,
                          Description := p.Description.String, Author := "" } := by
  unfold loopBody
  rw [h]
  simp

/-- The body when both lookups succeed. -/
theorem loopBody_found (db : DB) (p : Product) (cp : CharacterProduct) (c : Character)
    (h1 : db.GetCharacterProduct p.ID = .ok cp) (h2 : db.GetCharacter cp.CharacterID = .ok c) :
    loopBody db p = .ok { Type_ := "PP", ID := p.ProductGUID, Title := p.Name,
                          Description := p.Description.String, Author := c.Name } := by
  unfold loopBody
  rw [h1]
  simp only [h2]

/-- The queries of a store given by its tables fail with `sql.ErrNoRows` only. -/
theorem loopBody_toDB_error (T : Tables) (p : Product) (e : DBError)
    (h : loopBody T.toDB p = .error e) : e = DBError.ErrNoRows := by
  unfold loopBody at h
  split at h
  next err herr =>
    split at h
    · simp at h
    · simp only [Except.error.injEq] at h
      subst h
      simp only [Tables.toDB] at herr
      split at herr
      · simp at herr
      · simp only [Except.error.injEq] at herr
        exact herr.symm
  next cp hcp =>
    split at h
    next err herr =>
      simp only [Except.error.injEq] at h
      subst h
      simp only [Tables.toDB] at herr
      split at herr
      · simp at herr
      · simp only [Except.error.injEq] at herr
        exact herr.symm
    · simp at h

/-- The association query of a store given by its tables, when a row is selected. -/
theorem toDB_GetCharacterProduct_some (T : Tables) (pid : Int) (cp : CharacterProduct)
    (h : T.character_products.find? (authorFilter pid) = some cp) :
    T.toDB.GetCharacterProduct pid = .ok cp := by
  simp only [Tables.toDB, h]

/-- The association query of a store given by its tables, when no row is selected. -/
theorem toDB_GetCharacterProduct_none (T : Tables) (pid : Int)
    (h : T.character_products.find? (authorFilter pid) = none) :
    T.toDB.GetCharacterProduct pid = .error DBError.ErrNoRows := by
  simp only [Tables.toDB, h]

/-- What the association query of a store given by its tables returns is a row of the table
that passes the `WHERE` clause. -/
theorem toDB_GetCharacterProduct_ok (T : Tables) (pid : Int) (cp : CharacterProduct)
    (h : T.toDB.GetCharacterProduct pid = .ok cp) :
    T.character_products.find? (authorFilter pid) = some cp := by
  simp only [Tables.toDB] at h
  split at h
  next r hr =>
    simp only [Except.ok.injEq] at h
    rw [hr, h]
  · simp at h

/-- The association query of a store given by its tables signals `sql.ErrNoRows` exactly
when no row of `character_products` is of the product with a label that contains `作者` and
does not contain `作者(原文)`. -/
theorem toDB_GetCharacterProduct_noRows_iff (T : Tables) (pid : Int) :
    T.toDB.GetCharacterProduct pid = .error DBError.ErrNoRows ↔
      ∀ r ∈ T.character_products, ¬ (r.ProductID = pid ∧
        "作者".data <:+: r.CharacterType.data ∧
        ¬ "作者(原文)".data <:+: r.CharacterType.data) := by
  constructor
  · intro h r hr hw
    have hsome : (T.character_products.find? (authorFilter pid)).isSome := by
      rw [List.find?_isSome]
      exact ⟨r, hr, (authorFilter_iff pid r).2 hw⟩
    obtain ⟨cp, hcp⟩ := Option.isSome_iff_exists.1 hsome
    rw [toDB_GetCharacterProduct_some T pid cp hcp] at h
    simp at h
  · intro h
    apply toDB_GetCharacterProduct_none
    rw [List.find?_eq_none]
    intro r hr hf
    exact h r hr ((authorFilter_iff pid r).1 hf)

/-- The text a scanned description holds: the stored text, or the empty string for NULL. -/
theorem StructScan_Description_String (row : ProductRow) :
    (StructScan row).Description.String = row.short_description.getD "" := by
  cases h : row.short_description <;> simp [StructScan, NullString_Scan, h]

/-- On a scanned product the body is: resolve the author, then assemble. -/
theorem loopBody_eq_assemble (db : DB) (row : ProductRow) :
    loopBody db (StructScan row) =
      (resolveAuthor db row.id).map (assemble (StructScan row)) := by
  have hd : (if (StructScan row).Description.Valid then (StructScan row).Description.String
      else "") = (StructScan row).Description.String := by
    cases h : row.short_description <;> simp [StructScan, NullString_Scan, h]
  unfold loopBody resolveAuthor
  rw [show (StructScan row).ID = row.id from rfl]
  cases h1 : db.GetCharacterProduct row.id with
  | error e =>
    cases e with
    | ErrNoRows => simp [Except.map, assemble, hd]
    | other msg => simp [Except.map]
  | ok cp =>
    cases h2 : db.GetCharacter cp.CharacterID with
    | error e => simp [Except.map, h2]
    | ok c => simp [Except.map, assemble, hd, h2]

/-- On a scanned batch the loop of the source computes what the driver of the specification
computes. -/
theorem transformLoop_eq_specRun (db : DB) (rows : List ProductRow)
    (result : List BigQueryProduct) :
    transformLoop db (rows.map StructScan) result =
      match specRun db (rows.map StructScan) with
      | .ok records => (result ++ records, none)
      | .error err => ([], some err) := by
  induction rows generalizing result with
  | nil => simp [transformLoop, specRun]
  | cons row rest ih =>
    simp only [List.map_cons, transformLoop, specRun, loopBody_eq_assemble]
    rw [show (StructScan row).ID = row.id from rfl]
    cases resolveAuthor db row.id with
    | error e => simp [Except.map]
    | ok m =>
      simp only [Except.map, ih]
      cases specRun db (rest.map StructScan) with
      | error e => rfl
      | ok records => simp

/-! ## Claims on `QueryAndTransformProducts` -/

/-- C1. When the product query succeeds, every row scans, and for every loaded product the
association query either has no row or has a row whose character is found, the function
returns no error and exactly one record per loaded product, and the record at index `i` has
the `product_guid` of the `i`-th product as id and its `name` as title. -/
theorem C1_cardinality_and_order (db : DB) (rows : List ProductRow)
    (hq : db.Queryx = .ok (rows.map Except.ok))
    (hres : ∀ row ∈ rows, db.GetCharacterProduct row.id = .error DBError.ErrNoRows ∨
      ∃ cp c, db.GetCharacterProduct row.id = .ok cp ∧ db.GetCharacter cp.CharacterID = .ok c) :
    ∃ rs, QueryAndTransformProducts db = (rs, none) ∧ rs.length = rows.length ∧
      ∀ i (hi : i < rows.length), ∃ r, rs[i]? = some r ∧
        r.ID = rows[i].product_guid ∧ r.Title = rows[i].name := by
  have htot : ∃ rs, QueryAndTransformProducts db = (rs, none) := by
    rw [QueryAndTransformProducts_of_rows db rows hq]
    apply transformLoop_total
    intro p hp
    obtain ⟨row, hrow, rfl⟩ := List.mem_map.1 hp
    rcases hres row hrow with h | ⟨cp, c, h1, h2⟩
    · exact ⟨_, loopBody_noRows db _ h⟩
    · exact ⟨_, loopBody_found db _ cp c h1 h2⟩
  obtain ⟨rs, hrs⟩ := htot
  obtain ⟨hlen, hidx⟩ := run_index db rows hq rs hrs
  refine ⟨rs, hrs, hlen, fun i hi => ?_⟩
  obtain ⟨r, hr, hb⟩ := hidx i hi
  obtain ⟨_, h2, h3, _⟩ := loopBody_fields db _ r hb
  exact ⟨r, hr, h2, h3⟩

theorem C1_cardinality_and_order_witness :
    ∃ rs, QueryAndTransformProducts exampleTables.toDB = (rs, none) ∧
      rs.length = (exampleTables.products.take 10).length ∧
      ∀ i (hi : i < (exampleTables.products.take 10).length), ∃ r, rs[i]? = some r ∧
        r.ID = (exampleTables.products.take 10)[i].product_guid ∧
        r.Title = (exampleTables.products.take 10)[i].name :=
  C1_cardinality_and_order exampleTables.toDB (exampleTables.products.take 10) rfl (by
    intro row hrow
    have h : row = exampleTables.products[0] ∨ row = exampleTables.products[1] ∨
        row = exampleTables.products[2] := by
      simpa [exampleTables] using hrow
    rcases h with rfl | rfl | rfl
    · exact Or.inl rfl
    · exact Or.inr ⟨_, _, rfl, rfl⟩
    · exact Or.inl rfl)

/-- C2. A loaded product whose association query signals `sql.ErrNoRows` raises no error: the
body gives the record with the empty author, the loop goes on with the remaining products,
a run without error has that record at the index of the product, and the error of a run
that fails is the one raised at another index. -/
theorem C2_no_association_empty_author (db : DB) (rows : List ProductRow)
    (hq : db.Queryx = .ok (rows.map Except.ok)) (i : Nat) (hi : i < rows.length)
    (hno : db.GetCharacterProduct rows[i].id = .error DBError.ErrNoRows) :
    loopBody db (StructScan rows[i]) =
        .ok { Type_ := "PP", ID := rows[i].product_guid, Title := rows[i].name,
              Description := (StructScan rows[i]).Description.String, Author := "" } ∧
      (∀ rest result, transformLoop db (StructScan rows[i] :: rest) result =
        transformLoop db rest (result ++
          [{ Type_ := "PP", ID := rows[i].product_guid, Title := rows[i].name,
             Description := (StructScan rows[i]).Description.String, Author := "" }])) ∧
      (∀ rs, QueryAndTransformProducts db = (rs, none) →
        rs[i]? = some { Type_ := "PP", ID := rows[i].product_guid, Title := rows[i].name,
                        Description := (StructScan rows[i]).Description.String,
                        Author := "" }) ∧
      (∀ rs e, QueryAndTransformProducts db = (rs, some e) →
        ∃ j, ∃ hj : j < rows.length, j ≠ i ∧
          loopBody db (StructScan rows[j]) = .error e) := by
  have hb := loopBody_noRows db (StructScan rows[i]) hno
  refine ⟨hb, ?_, ?_, ?_⟩
  · intro rest result
    conv_lhs => unfold transformLoop
    rw [hb]
    rfl
  · intro rs hrun
    obtain ⟨r, hr, hr2⟩ := (run_index db rows hq rs hrun).2 i hi
    rw [hb] at hr2
    simp only [Except.ok.injEq] at hr2
    rw [hr, ← hr2]
    rfl
  · intro rs e hrun
    rw [QueryAndTransformProducts_of_rows db rows hq] at hrun
    obtain ⟨_, p, hp, hpe⟩ := transformLoop_error_inv db _ _ rs e hrun
    obtain ⟨row, hrow, rfl⟩ := List.mem_map.1 hp
    obtain ⟨j, hj, rfl⟩ := List.getElem_of_mem hrow
    refine ⟨j, hj, ?_, hpe⟩
    rintro rfl
    rw [hb] at hpe
    simp at hpe

theorem C2_no_association_empty_author_witness :
    loopBody exampleTables.toDB (StructScan (exampleTables.products.take 10)[2]) =
        .ok { Type_ := "PP", ID := "g3", Title := "Book C", Description := "", Author := "" } ∧
      (QueryAndTransformProducts exampleTables.toDB).2 = none ∧
      (QueryAndTransformProducts exampleTables.toDB).1[2]? =
        some { Type_ := "PP", ID := "g3", Title := "Book C", Description := "", Author := "" } :=
  have h := C2_no_association_empty_author exampleTables.toDB
    (exampleTables.products.take 10) rfl 2 (by decide) rfl
  ⟨h.1, by decide, h.2.2.1 (QueryAndTransformProducts exampleTables.toDB).1 (by decide)⟩

/-- C3. A store in which a product of the batch has a selected association row whose
`character_id` is the id of no row of `characters` makes the function fail: it returns the
error of the character lookup (`sql.ErrNoRows`, not absorbed) and no record, and the body at
that product gives the error, not a record with an empty author. -/
theorem C3_missing_character_fails (T : Tables) (row : ProductRow)
    (hrow : row ∈ T.products.take 10) (cp : CharacterProduct)
    (hcp : T.character_products.find? (authorFilter row.id) = some cp)
    (hmiss : ∀ c ∈ T.characters, c.ID ≠ cp.CharacterID) :
    QueryAndTransformProducts T.toDB = ([], some DBError.ErrNoRows) ∧
      loopBody T.toDB (StructScan row) = .error DBError.ErrNoRows := by
  have hget : T.toDB.GetCharacter cp.CharacterID = .error DBError.ErrNoRows := by
    have hf : T.characters.find? (fun c => decide (c.ID = cp.CharacterID)) = none := by
      rw [List.find?_eq_none]
      intro c hc
      simpa using hmiss c hc
    simp only [Tables.toDB, hf]
  have hb : loopBody T.toDB (StructScan row) = .error DBError.ErrNoRows := by
    unfold loopBody
    rw [show (StructScan row).ID = row.id from rfl, toDB_GetCharacterProduct_some T _ cp hcp]
    simp only [hget]
  refine ⟨?_, hb⟩
  rw [QueryAndTransformProducts_toDB]
  obtain ⟨e2, he2⟩ := transformLoop_error_of_mem T.toDB ((T.products.take 10).map StructScan) []
    (StructScan row) (List.mem_map_of_mem _ hrow) _ hb
  obtain ⟨_, p, _, hpe⟩ := transformLoop_error_inv _ _ _ _ _ he2
  rw [he2, loopBody_toDB_error T p e2 hpe]

theorem C3_missing_character_fails_witness :
    QueryAndTransformProducts brokenTables.toDB = ([], some DBError.ErrNoRows) ∧
      loopBody brokenTables.toDB
        (StructScan { id := 2, product_guid := "g2", name := "Book B",
                      short_description := some "desc" }) = .error DBError.ErrNoRows :=
  C3_missing_character_fails brokenTables _ (by decide)
    { ProductID := 2, CharacterID := 10, CharacterType := "作者" } (by decide) (by decide)

/-- C4. In a store given by its tables, a row whose label contains `作者(原文)` fails the
`WHERE` clause of the association query for every product and is never the row the query
returns, also when the label contains `作者`; and a product all of whose association rows
carry such labels gets the record with the empty author, without error. -/
theorem C4_original_author_excluded (T : Tables) :
    (∀ (pid : Int) (r : CharacterProduct), "作者(原文)".data <:+: r.CharacterType.data →
      authorFilter pid r = false ∧ T.toDB.GetCharacterProduct pid ≠ .ok r) ∧
    (∀ p : Product,
      (∀ r ∈ T.character_products, r.ProductID = p.ID →
        "作者(原文)".data <:+: r.CharacterType.data) →
      T.toDB.GetCharacterProduct p.ID = .error DBError.ErrNoRows ∧
      loopBody T.toDB p =
        .ok { Type_ := "PP", ID := p.ProductGUID, Title := p.Name,
              Description := p.Description.String, Author := "" }) := by
  have hfalse : ∀ (pid : Int) (r : CharacterProduct),
      "作者(原文)".data <:+: r.CharacterType.data → authorFilter pid r = false := by
    intro pid r hr
    cases hf : authorFilter pid r with
    | false => rfl
    | true => exact absurd hr ((authorFilter_iff pid r).1 hf).2.2
  refine ⟨fun pid r hr => ⟨hfalse pid r hr, ?_⟩, fun p hp => ?_⟩
  · intro hget
    have hfind := toDB_GetCharacterProduct_ok T pid r hget
    have := List.find?_some hfind
    rw [hfalse pid r hr] at this
    exact Bool.false_ne_true this
  · have hnone : T.character_products.find? (authorFilter p.ID) = none := by
      rw [List.find?_eq_none]
      intro r hr hf
      have h := (authorFilter_iff p.ID r).1 hf
      exact h.2.2 (hp r hr h.1)
    have hget := toDB_GetCharacterProduct_none T p.ID hnone
    exact ⟨hget, loopBody_noRows T.toDB p hget⟩

theorem C4_original_author_excluded_witness :
    ("作者".data <:+: "作者(原文)".data) ∧
      authorFilter 1 { ProductID := 1, CharacterID := 11, CharacterType := "作者(原文)" } = false ∧
      loopBody exampleTables.toDB (StructScan
          { id := 1, product_guid := "g1", name := "Book A", short_description := none }) =
        .ok { Type_ := "PP", ID := "g1", Title := "Book A", Description := "", Author := "" } :=
  ⟨by decide,
    ((C4_original_author_excluded exampleTables).1 1
      { ProductID := 1, CharacterID := 11, CharacterType := "作者(原文)" } (by decide)).1,
    ((C4_original_author_excluded exampleTables).2
      (StructScan { id := 1, product_guid := "g1", name := "Book A", short_description := none })
      (by decide)).2⟩

/-- At each failure the source checks (the call of the product query fails, a row does not
scan, an association query fails otherwise than with `sql.ErrNoRows`, or a character lookup
fails) the function returns an error and the nil slice; and whenever it returns an error the
slice is nil and one of these failures has occurred. -/
theorem checked_failure_returns_nil (db : DB) :
    (CheckedFailure db → ∃ err, QueryAndTransformProducts db = ([], some err)) ∧
    (∀ rs err, QueryAndTransformProducts db = (rs, some err) →
      rs = [] ∧ CheckedFailure db) := by
  constructor
  · rintro (⟨e, he⟩ | ⟨rows, hq, hscan | ⟨ps, hps, p, hp, hfail⟩⟩)
    · exact ⟨e, by simp [QueryAndTransformProducts, he]⟩
    · obtain ⟨e, he⟩ := hscan
      obtain ⟨e2, he2⟩ := scanLoop_error_of_mem rows [] e he
      exact ⟨e2, by simp [QueryAndTransformProducts, hq, he2]⟩
    · have hb : ∃ e, loopBody db p = .error e := by
        rcases hfail with ⟨e, he, hne⟩ | ⟨cp, e, h1, h2⟩
        · exact ⟨e, by simp [loopBody, he, hne]⟩
        · exact ⟨e, by simp [loopBody, h1, h2]⟩
      obtain ⟨e, he⟩ := hb
      obtain ⟨e2, he2⟩ := transformLoop_error_of_mem db ps [] p hp e he
      exact ⟨e2, by simp [QueryAndTransformProducts, hq, hps, he2]⟩
  · intro rs err h
    unfold QueryAndTransformProducts at h
    cases hq : db.Queryx with
    | error e =>
      rw [hq] at h
      simp only [Prod.mk.injEq, Option.some.injEq] at h
      exact ⟨h.1.symm, Or.inl ⟨e, hq⟩⟩
    | ok rows =>
      rw [hq] at h
      simp only at h
      cases hs : scanLoop rows [] with
      | error e =>
        rw [hs] at h
        simp only [Prod.mk.injEq, Option.some.injEq] at h
        exact ⟨h.1.symm, Or.inr ⟨rows, hq, Or.inl ⟨e, scanLoop_error_inv rows [] e hs⟩⟩⟩
      | ok ps =>
        rw [hs] at h
        obtain ⟨h1, p, hp, hpe⟩ := transformLoop_error_inv db ps [] rs err h
        refine ⟨h1, Or.inr ⟨rows, hq, Or.inr ⟨ps, hs, p, hp, ?_⟩⟩⟩
        unfold loopBody at hpe
        split at hpe
        next e he =>
          split at hpe
          · simp at hpe
          next hne => exact Or.inl ⟨e, he, hne⟩
        next cp hcp =>
          split at hpe
          next e he => exact Or.inr ⟨cp, e, hcp, he⟩
          · simp at hpe

/-- The loop reads the store through the two lookups only. -/
theorem transformLoop_congr (d1 d2 : DB)
    (h1 : d1.GetCharacterProduct = d2.GetCharacterProduct)
    (h2 : d1.GetCharacter = d2.GetCharacter) (ps : List Product)
    (result : List BigQueryProduct) :
    transformLoop d1 ps result = transformLoop d2 ps result := by
  have hb : ∀ p, loopBody d1 p = loopBody d2 p := by
    intro p
    unfold loopBody
    rw [h1, h2]
  induction ps generalizing result with
  | nil => rfl
  | cons p rest ih =>
    simp only [transformLoop, hb p]
    cases loopBody d2 p with
    | error err => rfl
    | ok r => exact ih _

/-- The function does not read `rows.Err()`: its result is the same whatever the cursor
holds as error. -/
theorem QueryAndTransformProducts_ignores_RowsErr (db : DB) (e : Option DBError) :
    QueryAndTransformProducts { db with RowsErr := e } = QueryAndTransformProducts db := by
  unfold QueryAndTransformProducts
  dsimp only
  cases db.Queryx with
  | error err => rfl
  | ok rows =>
    dsimp only
    cases scanLoop rows [] with
    | error err => rfl
    | ok ps =>
      dsimp only
      exact transformLoop_congr
        { Queryx := Except.ok rows, RowsErr := e,
          GetCharacterProduct := db.GetCharacterProduct, GetCharacter := db.GetCharacter }
        db rfl rfl ps []

/-- C5, a defect of the source. A run fails when the product query breaks while its rows are
read, and the function then returns no error and the records of the rows read before the
break: on the store `exampleTables` whose cursor breaks after the second of three rows, the
run has failed and the function returns two records with the `nil` error, a partial result
where the error and the nil slice are due. -/
theorem C5_cursor_break_returns_partial_result :
    RunFails cursorBreakDB ∧
      ¬ CheckedFailure cursorBreakDB ∧
      QueryAndTransformProducts cursorBreakDB =
        ([{ Type_ := "PP", ID := "g1", Title := "Book A", Description := "", Author := "" },
          { Type_ := "PP", ID := "g2", Title := "Book B", Description := "desc",
            Author := "Jane Doe" }], none) := by
  have hrun : QueryAndTransformProducts cursorBreakDB =
      ([{ Type_ := "PP", ID := "g1", Title := "Book A", Description := "", Author := "" },
        { Type_ := "PP", ID := "g2", Title := "Book B", Description := "desc",
          Author := "Jane Doe" }], none) := by decide
  refine ⟨Or.inr ⟨_, _, rfl, rfl⟩, ?_, hrun⟩
  intro hf
  obtain ⟨err, herr⟩ := (checked_failure_returns_nil cursorBreakDB).1 hf
  rw [hrun] at herr
  simp at herr

/-- C6. When the product query succeeds and every row scans, the record the body gives for a
row, in the branch without author and in the branch with one, has the empty string as
description when `short_description` is NULL and the stored text otherwise; so have, index by
index, the records of a run without error. -/
theorem C6_null_description_is_empty (db : DB) (rows : List ProductRow)
    (hq : db.Queryx = .ok (rows.map Except.ok)) :
    (∀ (row : ProductRow) (r : BigQueryProduct), loopBody db (StructScan row) = .ok r →
      (row.short_description = none → r.Description = "") ∧
      (∀ text, row.short_description = some text → r.Description = text)) ∧
    (∀ rs, QueryAndTransformProducts db = (rs, none) →
      rs.map (fun r => r.Description) =
        rows.map (fun row => match row.short_description with
          | none => ""
          | some text => text)) := by
  have hbody : ∀ (row : ProductRow) (r : BigQueryProduct),
      loopBody db (StructScan row) = .ok r →
      r.Description = (match row.short_description with
        | none => ""
        | some text => text) := by
    intro row r h
    rw [(loopBody_fields db _ r h).2.2.2, StructScan_Description_String]
    cases row.short_description <;> rfl
  constructor
  · intro row r h
    have := hbody row r h
    constructor
    · intro hn
      rw [this, hn]
    · intro text hs
      rw [this, hs]
  · intro rs hrun
    obtain ⟨hlen, hidx⟩ := run_index db rows hq rs hrun
    apply List.ext_getElem
    · simp [hlen]
    · intro i h1 h2
      have hi : i < rows.length := by simpa using h2
      obtain ⟨r, hr, hb⟩ := hidx i hi
      obtain ⟨_, hri⟩ := List.getElem?_eq_some_iff.1 hr
      simp only [List.getElem_map, hri]
      exact hbody _ r hb

theorem C6_null_description_is_empty_witness :
    (QueryAndTransformProducts exampleTables.toDB).2 = none ∧
      (QueryAndTransformProducts exampleTables.toDB).1.map (fun r => r.Description) =
        ["", "desc", ""] :=
  ⟨by decide,
    (C6_null_description_is_empty exampleTables.toDB (exampleTables.products.take 10) rfl).2
      (QueryAndTransformProducts exampleTables.toDB).1 (by decide)⟩

/-- C7. In a store given by its tables, a product of the batch that has an association row
passing the filter (of the product, label with `作者` and without `作者(原文)`), and whose
selected row references an existing character, gets as author the name of a character `c`
whose id is the `character_id` of the row `cp`, where `cp` is the first row of
`character_products` that passes the filter for this product: `cp` is of this product and
its label passes, and no row before it does. -/
theorem C7_author_of_first_matching_row (T : Tables) (i : Nat)
    (hi : i < (T.products.take 10).length)
    (hmatch : ∃ r ∈ T.character_products, r.ProductID = (T.products.take 10)[i].id ∧
      "作者".data <:+: r.CharacterType.data ∧ ¬ "作者(原文)".data <:+: r.CharacterType.data)
    (hexists : ∀ cp, T.character_products.find? (authorFilter (T.products.take 10)[i].id) = some cp →
      ∃ c ∈ T.characters, c.ID = cp.CharacterID) :
    ∃ (cp : CharacterProduct) (c : Character) (before after : List CharacterProduct),
      T.character_products = before ++ cp :: after ∧
      (∀ r ∈ before, ¬ (r.ProductID = (T.products.take 10)[i].id ∧
        "作者".data <:+: r.CharacterType.data ∧
        ¬ "作者(原文)".data <:+: r.CharacterType.data)) ∧
      cp.ProductID = (T.products.take 10)[i].id ∧
      "作者".data <:+: cp.CharacterType.data ∧
      ¬ "作者(原文)".data <:+: cp.CharacterType.data ∧
      c ∈ T.characters ∧ c.ID = cp.CharacterID ∧
      loopBody T.toDB (StructScan (T.products.take 10)[i]) =
        .ok { Type_ := "PP", ID := (T.products.take 10)[i].product_guid,
              Title := (T.products.take 10)[i].name,
              Description := (T.products.take 10)[i].short_description.getD "",
              Author := c.Name } ∧
      ∀ rs, QueryAndTransformProducts T.toDB = (rs, none) →
        rs[i]? = some { Type_ := "PP", ID := (T.products.take 10)[i].product_guid,
                        Title := (T.products.take 10)[i].name,
                        Description := (T.products.take 10)[i].short_description.getD "",
                        Author := c.Name } := by
  obtain ⟨r0, hr0, hr0f⟩ := hmatch
  have hsome : (T.character_products.find? (authorFilter (T.products.take 10)[i].id)).isSome := by
    rw [List.find?_isSome]
    exact ⟨r0, hr0, (authorFilter_iff _ _).2 hr0f⟩
  obtain ⟨cp, hcp⟩ := Option.isSome_iff_exists.1 hsome
  obtain ⟨hpcp, before, after, hsplit, hbefore⟩ := List.find?_eq_some.1 hcp
  have hwords := (authorFilter_iff _ _).1 hpcp
  obtain ⟨c0, hc0, hc0id⟩ := hexists cp hcp
  have hcsome : (T.characters.find? (fun c => decide (c.ID = cp.CharacterID))).isSome := by
    rw [List.find?_isSome]
    exact ⟨c0, hc0, by simpa using hc0id⟩
  obtain ⟨c, hc⟩ := Option.isSome_iff_exists.1 hcsome
  have hcid : c.ID = cp.CharacterID := by simpa using List.find?_some hc
  have hget : T.toDB.GetCharacter cp.CharacterID = .ok c := by
    simp only [Tables.toDB, hc]
  have hb := loopBody_found T.toDB (StructScan (T.products.take 10)[i]) cp c
    (toDB_GetCharacterProduct_some T _ cp hcp) hget
  rw [StructScan_Description_String] at hb
  refine ⟨cp, c, before, after, hsplit, ?_, hwords.1, hwords.2.1, hwords.2.2,
    List.mem_of_find?_eq_some hc, hcid, hb, ?_⟩
  · intro r hr hwr
    have h1 := hbefore r hr
    rw [(authorFilter_iff _ _).2 hwr] at h1
    simp at h1
  · intro rs hrun
    obtain ⟨r, hr, hr2⟩ := (run_index T.toDB (T.products.take 10) rfl rs hrun).2 i hi
    rw [hb] at hr2
    simp only [Except.ok.injEq] at hr2
    rw [hr, ← hr2]
    rfl

theorem C7_author_of_first_matching_row_witness :
    QueryAndTransformProducts bookBTables.toDB =
        ([{ Type_ := "PP", ID := "g2", Title := "Book B", Description := "desc",
            Author := "Jane Doe" }], none) ∧
      ∃ (cp : CharacterProduct) (c : Character) (before after : List CharacterProduct),
        bookBTables.character_products = before ++ cp :: after ∧
        (∀ r ∈ before, ¬ (r.ProductID = (bookBTables.products.take 10)[0].id ∧
          "作者".data <:+: r.CharacterType.data ∧
          ¬ "作者(原文)".data <:+: r.CharacterType.data)) ∧
        cp.ProductID = (bookBTables.products.take 10)[0].id ∧
        "作者".data <:+: cp.CharacterType.data ∧
        ¬ "作者(原文)".data <:+: cp.CharacterType.data ∧
        c ∈ bookBTables.characters ∧ c.ID = cp.CharacterID ∧
        loopBody bookBTables.toDB (StructScan (bookBTables.products.take 10)[0]) =
          .ok { Type_ := "PP", ID := (bookBTables.products.take 10)[0].product_guid,
                Title := (bookBTables.products.take 10)[0].name,
                Description := (bookBTables.products.take 10)[0].short_description.getD "",
                Author := c.Name } ∧
        ∀ rs, QueryAndTransformProducts bookBTables.toDB = (rs, none) →
          rs[0]? = some { Type_ := "PP", ID := (bookBTables.products.take 10)[0].product_guid,
                          Title := (bookBTables.products.take 10)[0].name,
                          Description :=
                            (bookBTables.products.take 10)[0].short_description.getD "",
                          Author := c.Name } :=
  ⟨by decide,
    C7_author_of_first_matching_row bookBTables 0 (by decide)
      ⟨{ ProductID := 2, CharacterID := 10, CharacterType := "作者" }, by decide, by decide,
        by decide, by decide⟩
      (by
        intro cp hcp
        have h : cp = { ProductID := 2, CharacterID := 10, CharacterType := "作者" } := by
          have h2 : bookBTables.character_products.find?
              (authorFilter (bookBTables.products.take 10)[0].id) =
              some { ProductID := 2, CharacterID := 10, CharacterType := "作者" } := by decide
          rw [h2] at hcp
          exact (Option.some.inj hcp).symm
        subst h
        exact ⟨{ ID := 10, Name := "Jane Doe" }, by decide, by decide⟩)⟩

/-- C8. When the product query succeeds and every row scans: the body of the loop on a
product is `assemble` applied to the product and to what `resolveAuthor` gives (in both
branches), the whole function computes what the driver of the specification computes, and
every record of a run without error has type `PP`, the `product_guid` of its product as id
and its `name` as title. -/
theorem C8_assembly_is_one_mapping (db : DB) (rows : List ProductRow)
    (hq : db.Queryx = .ok (rows.map Except.ok)) :
    (∀ row : ProductRow, loopBody db (StructScan row) =
      (resolveAuthor db row.id).map (assemble (StructScan row))) ∧
    (QueryAndTransformProducts db =
      match specRun db (rows.map StructScan) with
      | .ok records => (records, none)
      | .error err => ([], some err)) ∧
    (∀ rs, QueryAndTransformProducts db = (rs, none) →
      rs.length = rows.length ∧
      ∀ i (hi : i < rows.length), ∃ m, resolveAuthor db rows[i].id = .ok m ∧
        rs[i]? = some (assemble (StructScan rows[i]) m) ∧
        (assemble (StructScan rows[i]) m).Type_ = "PP" ∧
        (assemble (StructScan rows[i]) m).ID = rows[i].product_guid ∧
        (assemble (StructScan rows[i]) m).Title = rows[i].name) := by
  refine ⟨loopBody_eq_assemble db, ?_, ?_⟩
  · rw [QueryAndTransformProducts_of_rows db rows hq, transformLoop_eq_specRun]
    cases specRun db (rows.map StructScan) <;> simp
  · intro rs hrun
    obtain ⟨hlen, hidx⟩ := run_index db rows hq rs hrun
    refine ⟨hlen, fun i hi => ?_⟩
    obtain ⟨r, hr, hb⟩ := hidx i hi
    rw [loopBody_eq_assemble] at hb
    cases hm : resolveAuthor db rows[i].id with
    | error e =>
      rw [hm] at hb
      simp [Except.map] at hb
    | ok m =>
      rw [hm] at hb
      simp only [Except.map, Except.ok.injEq] at hb
      exact ⟨m, rfl, by rw [hr, hb], rfl, rfl, rfl⟩

theorem C8_assembly_is_one_mapping_witness :
    QueryAndTransformProducts bookATables.toDB =
        ([{ Type_ := "PP", ID := "g1", Title := "Book A", Description := "", Author := "" }],
          none) ∧
      specRun bookATables.toDB ((bookATables.products.take 10).map StructScan) =
        .ok [{ Type_ := "PP", ID := "g1", Title := "Book A", Description := "", Author := "" }] ∧
      (QueryAndTransformProducts bookATables.toDB =
        match specRun bookATables.toDB ((bookATables.products.take 10).map StructScan) with
        | .ok records => (records, none)
        | .error err => ([], some err)) :=
  ⟨by decide, rfl,
    (C8_assembly_is_one_mapping bookATables.toDB (bookATables.products.take 10) rfl).2.1⟩

/-- C9. In a store given by its tables the function never returns more than ten records,
and a run without error returns `min 10 n` records for a `products` table of `n` rows, the
record at index `i` being built from the `i`-th row of the table. -/
theorem C9_batch_capped_at_ten (T : Tables) :
    (QueryAndTransformProducts T.toDB).1.length ≤ 10 ∧
    (∀ rs, QueryAndTransformProducts T.toDB = (rs, none) →
      rs.length = min 10 T.products.length ∧
      ∀ i (_ : i < 10) (hi : i < T.products.length), ∃ r, rs[i]? = some r ∧
        loopBody T.toDB (StructScan T.products[i]) = .ok r ∧
        r.ID = T.products[i].product_guid ∧ r.Title = T.products[i].name) := by
  have hsucc : ∀ rs, QueryAndTransformProducts T.toDB = (rs, none) →
      rs.length = min 10 T.products.length ∧
      ∀ i (_ : i < 10) (hi : i < T.products.length), ∃ r, rs[i]? = some r ∧
        loopBody T.toDB (StructScan T.products[i]) = .ok r ∧
        r.ID = T.products[i].product_guid ∧ r.Title = T.products[i].name := by
    intro rs hrun
    obtain ⟨hlen, hidx⟩ := run_index T.toDB (T.products.take 10) rfl rs hrun
    refine ⟨by rw [hlen, List.length_take], fun i h10 hi => ?_⟩
    have hi2 : i < (T.products.take 10).length := by
      rw [List.length_take]
      omega
    obtain ⟨r, hr, hb⟩ := hidx i hi2
    rw [List.getElem_take] at hb
    obtain ⟨_, h2, h3, _⟩ := loopBody_fields _ _ r hb
    exact ⟨r, hr, hb, h2, h3⟩
  refine ⟨?_, hsucc⟩
  rcases transformLoop_cases T.toDB ((T.products.take 10).map StructScan) [] with
    ⟨rs, hrs⟩ | ⟨e, he⟩
  · rw [← QueryAndTransformProducts_toDB] at hrs
    have := (hsucc rs hrs).1
    rw [hrs]
    simp only [this]
    omega
  · rw [← QueryAndTransformProducts_toDB] at he
    rw [he]
    simp

theorem C9_batch_capped_at_ten_witness :
    twelveTables.products.length = 12 ∧
      (QueryAndTransformProducts twelveTables.toDB).2 = none ∧
      (QueryAndTransformProducts twelveTables.toDB).1.length = 10 ∧
      (QueryAndTransformProducts twelveTables.toDB).1.map (fun r => r.ID) =
        ["a", "b", "c", "d", "e", "f", "g", "h", "i", "j"] :=
  have h := (C9_batch_capped_at_ten twelveTables).2
    (QueryAndTransformProducts twelveTables.toDB).1 (by decide)
  ⟨by decide, by decide, h.1, by decide⟩

end Transform

namespace DirPrinter

/-! ## `printDir` computes the reference rendering -/

theorem skipped_eq_not_shown (name : String) : skipped name = !shown name := by
  unfold skipped shown HasPrefix
  have h1 : (".".data.isPrefixOf name.data) = !decide (name.data.head? ≠ some '.') := by
    have hd : ".".data = ['.'] := rfl
    rw [hd]
    cases name.data with
    | nil => simp [List.isPrefixOf]
    | cons c cs =>
      simp only [List.isPrefixOf, List.head?_cons, ne_eq, Option.some.injEq, Bool.and_true,
        decide_not, Bool.not_not]
      by_cases hc : c = '.'
      · subst hc
        simp
      · have hc2 : ¬ '.' = c := fun h => hc h.symm
        simp [hc, hc2]
  rw [h1]
  have h2 : (name == ".gitignore") = decide (name = ".gitignore") := by
    by_cases h : name = ".gitignore" <;> simp [h]
  simp [bne, Bool.not_or, h2]

theorem length_toEntries (ts : List Tree) : (toEntries ts).length = ts.length := by
  induction ts with
  | nil => simp [toEntries]
  | cons t ts ih => simp [toEntries, ih]

theorem newPrefix_eq (pfx : String) (i len : Int) :
    newPrefix pfx i len = pfx ++ (if i = len - 1 then "    " else "│   ") := by
  unfold newPrefix
  split <;> rfl

mutual
/-- The loop from index `i` on, over the last entries `ts` of a listing of `len` entries,
prints the reference rendering of `ts`. -/
theorem printLoop_eq_render (Join : String → String → String) (pfx dir : String) (len : Int) :
    ∀ (ts : List Tree) (i : Int), len = i + ts.length →
      printLoop Join pfx dir len (toEntries ts) i = render pfx ts
  | [], _, _ => by simp [toEntries, printLoop, render]
  | [t], i, h => by
    have hi : i = len - 1 := by
      simp only [List.length_singleton, Nat.cast_one] at h
      omega
    simp only [toEntries, printLoop, render, String.append_empty]
    rw [printBody_eq_renderEntry Join pfx dir len i t, if_pos hi]
  | t :: u :: rest, i, h => by
    have hi : ¬ i = len - 1 := by
      simp only [List.length_cons, Nat.cast_add, Nat.cast_one] at h
      omega
    have ih := printLoop_eq_render Join pfx dir len (u :: rest) (i + 1) (by
      simp only [List.length_cons, Nat.cast_add, Nat.cast_one] at h ⊢
      omega)
    rw [toEntries, printLoop, render, ih,
      printBody_eq_renderEntry Join pfx dir len i t, if_neg hi]
/-- One iteration of the loop prints the reference rendering of the entry. -/
theorem printBody_eq_renderEntry (Join : String → String → String) (pfx dir : String)
    (len i : Int) :
    ∀ t : Tree, printBody Join pfx dir len i t.toEntry =
      renderEntry pfx (if i = len - 1 then "    " else "│   ") t
  | .file name => by
    simp only [Tree.toEntry, printBody, renderEntry, skipped_eq_not_shown]
    cases shown name <;> simp
  | .dir name entries => by
    have ih := printLoop_eq_render Join (newPrefix pfx i len) (Join dir name)
      (toEntries entries).length entries 0 (by rw [length_toEntries]; simp)
    rw [newPrefix_eq] at ih
    simp only [Tree.toEntry, printBody, renderEntry, skipped_eq_not_shown, newPrefix_eq, ih]
    cases shown name <;> simp
end

/-- C10. For every directory tree, `printDir` prints the reference rendering of the listing
of the directory: one line `pfx ├── name` for each entry whose name does not start with `.`
or is `.gitignore`, followed for a directory by the rendering of its listing under the
prefix extended by `│   `, or by four spaces for the last entry of the listing; the other
entries print nothing. On the repository tree of the trailing comment of the file, `printDir`
prints the lines of the comment below the first one, and `main` prints them all. -/
theorem C10_printDir_reference_rendering (Join : String → String → String) (pfx dir : String)
    (files : List Tree) :
    printDir Join pfx dir (.ok (toEntries files)) = render pfx files ∧
    printDir Join "" "." (.ok (toEntries repoTree)) =
      "├── .gitignore\n├── cmd\n│   ├── dirprinter\n│   │   ├── main.go\n" ++
      "│   ├── transform\n│       ├── main.go\n├── go.mod\n├── go.sum\n├── pkg\n" ++
      "    ├── 123.txt\n    ├── db\n        ├── db.go\n" ∧
    main Join ["dirprinter", "."] (.ok (toEntries repoTree)) =
      ".\n├── .gitignore\n├── cmd\n│   ├── dirprinter\n│   │   ├── main.go\n" ++
      "│   ├── transform\n│       ├── main.go\n├── go.mod\n├── go.sum\n├── pkg\n" ++
      "    ├── 123.txt\n    ├── db\n        ├── db.go\n" := by
  have hgen : ∀ (p d : String) (ts : List Tree),
      printDir Join p d (.ok (toEntries ts)) = render p ts := by
    intro p d ts
    unfold printDir
    exact printLoop_eq_render Join p d _ ts 0 (by rw [length_toEntries]; simp)
  refine ⟨hgen pfx dir files, ?_, ?_⟩
  · rw [hgen]
    rfl
  · unfold main
    simp only
    rw [hgen]
    rfl

end DirPrinter
